import Mathlib

/-!
Shallow embedding of `src/pso.py` (classes `Particle` and `PSO`) and of the
caller `main_module.py`'s use of `PSO.optimize`.

Modelling conventions:
* Python floats are modelled as rationals (`R := ℚ`); `math.inf`, the initial
  `global_best_cost`, is modelled as `⊤` in `WithTop R`, and Python `None`
  (the initial `global_best_position`, and the value `optimize` returns) as
  `Option.none`.
* The cost function `self.cost_function` is an opaque oracle; it is passed
  explicitly as `f : List R → R` to each function that the source lets read
  `self.cost_function`.
* The random draws of `np.random.uniform(var_min, var_max, num_var)` during
  initialization are modelled by a stream `samp : Nat → Nat → R`
  (particle index, dimension); the two draws of `np.random.random(num_var)`
  per particle per iteration by streams `r1 r2 : Nat → Nat → Nat → R`
  (iteration, particle index, dimension), so every sample is fresh per
  iteration, per particle and per dimension, exactly as the source draws them.
* The GUI window passed to `optimize` is reduced to the only two things the
  optimizer reads or needs from it: the cancellation flag `my_window.stopped`,
  modelled as `stopped : Nat → Bool` (its value when polled at the top of
  iteration `t`), and the `display_info` side effect, which reads but never
  writes optimizer state and is therefore dropped.
* Every invocation of the cost function is recorded, in order, in a call log
  (field `calls`), so "invoked exactly n times" is the length of that log.
-/

namespace PSOSpec

/-- Scalars of the program, modelled as rationals. -/
abbrev R := ℚ

/-- `Particle.__init__`: the record a particle holds (`pso.py` lines 7-28).
The Python constructor fills the lists with `[]` and the costs with `-1`;
the optimizer overwrites every field during initialization. -/
structure Particle where
  position : List R
  best_position : List R
  velocity : List R
  cost : R
  best_cost : R
deriving Repr, DecidableEq

/-- A fresh `Particle()` as `Particle.__init__` leaves it. -/
def Particle.new : Particle :=
  { position := [], best_position := [], velocity := [], cost := -1, best_cost := -1 }

/-- The configuration fields `PSO.__init__` stores (`pso.py` lines 33-66).
`cost_function` is kept out of the record (see the header) and the run state
`global_best_cost = math.inf`, `global_best_position = None` is the initial
`SwarmState` below. The constructor body only assigns the arguments to
attributes: it has no validation or failure path, which `PSO.make` mirrors
by being a total function into `PSO`. -/
structure PSO where
  num_var : Int
  num_particles : Int
  iter_max : Int
  var_min : R
  var_max : R
  wi : R
  wf : R
  cpi : R
  cpf : R
  csi : R
  csf : R
deriving Repr, DecidableEq

/-- `PSO.__init__(cost_function, num_var, num_particles, iter_max, var_min,
var_max, wi, wf, cpi, cpf, csi, csf)`: stores the arguments, checks nothing. -/
def PSO.make (num_var num_particles iter_max : Int)
    (var_min var_max wi wf cpi cpf csi csf : R) : PSO :=
  { num_var := num_var, num_particles := num_particles, iter_max := iter_max,
    var_min := var_min, var_max := var_max, wi := wi, wf := wf,
    cpi := cpi, cpf := cpf, csi := csi, csf := csf }

/-- The divisor of the division inside `linrate`: `self.iter_max - 0`
(`pso.py` line 76). -/
def PSO.linrateDenom (self : PSO) : R := (self.iter_max : R) - 0

/-- `PSO.linrate(x_max, x_min, iteration)` (`pso.py` lines 70-76):
`x_min + ((x_max - x_min) / (self.iter_max - 0)) * (self.iter_max - iteration)`. -/
def PSO.linrate (self : PSO) (x_max x_min : R) (iteration : Nat) : R :=
  x_min + ((x_max - x_min) / self.linrateDenom) * ((self.iter_max : R) - (iteration : R))

/-- The inertia factor `w` as `optimize` computes it at iteration `t`:
`self.linrate(self.wf, self.wi, iteration)` (`pso.py` line 121-122). -/
def wCoeff (self : PSO) (t : Nat) : R := self.linrate self.wf self.wi t

/-- The cognitive coefficient `cp` as `optimize` computes it at iteration `t`:
`self.linrate(self.cpi, self.cpf, iteration)` (`pso.py` line 123-124). -/
def cpCoeff (self : PSO) (t : Nat) : R := self.linrate self.cpi self.cpf t

/-- The social coefficient `cs` as `optimize` computes it at iteration `t`:
`self.linrate(self.csi, self.csf, iteration)` (`pso.py` line 125-126). -/
def csCoeff (self : PSO) (t : Nat) : R := self.linrate self.csi self.csf t

/-- The optimizer's mutable run state: the particle array, the global best
(`self.global_best_cost`, `self.global_best_position`) and the log of every
cost-function invocation's argument. -/
structure SwarmState where
  particles : List Particle
  global_best_cost : WithTop R
  global_best_position : Option (List R)
  calls : List (List R)
deriving DecidableEq

/-- The run state as `PSO.__init__` leaves it: no particles,
`global_best_cost = math.inf`, `global_best_position = None`. -/
def initState : SwarmState :=
  { particles := [], global_best_cost := ⊤, global_best_position := none, calls := [] }

/-- The body of the initialization loop for one particle `i` (`pso.py` lines
100-106): `position = np.random.uniform(var_min, var_max, num_var)`,
`velocity = np.zeros(num_var)`, `cost = cost_function(position)`,
`best_position = position`, `best_cost = cost`. `samp d` is the `d`-th
uniform draw for this particle. -/
def initParticle (f : List R → R) (num_var : Int) (samp : Nat → R) : Particle :=
  let pos := (List.range num_var.toNat).map samp
  { position := pos
    best_position := pos
    velocity := List.replicate num_var.toNat 0
    cost := f pos
    best_cost := f pos }

/-- One pass of the initialization loop (`pso.py` lines 100-112): build the
particle, log the cost call, then the source's unconditional write
`self.global_best_position = particle_array[i].best_position` (line 107),
then the conditional global-best update (lines 110-112). -/
def initStep (f : List R → R) (num_var : Int) (samp : Nat → R) (s : SwarmState) : SwarmState :=
  let p := initParticle f num_var samp
  let s1 : SwarmState :=
    { particles := s.particles ++ [p]
      global_best_cost := s.global_best_cost
      global_best_position := some p.best_position
      calls := s.calls ++ [p.position] }
  if (p.best_cost : WithTop R) < s1.global_best_cost then
    { s1 with global_best_cost := (p.best_cost : WithTop R),
              global_best_position := some p.best_position }
  else s1

/-- The initialization loop `for i in range(self.num_particles)`
(`pso.py` lines 98-112), over the list of particle indices. -/
def initLoop (f : List R → R) (num_var : Int) (samp : Nat → Nat → R) :
    List Nat → SwarmState → SwarmState
  | [], s => s
  | i :: rest, s => initLoop f num_var samp rest (initStep f num_var (samp i) s)

/-- The whole initialization phase of `optimize` (`pso.py` lines 96-112). -/
def initRun (self : PSO) (f : List R → R) (samp : Nat → Nat → R) : SwarmState :=
  initLoop f self.num_var samp (List.range self.num_particles.toNat) initState

/-- The velocity update (`pso.py` lines 131-137):
`w * velocity + cp * r1 * (best_position - position) + cs * r2 *
(global_best_position - position)`, elementwise over the `n = num_var`
dimensions, with `r1 d`, `r2 d` the `d`-th entries of the two fresh
`np.random.random(num_var)` draws. -/
def updVelocity (n : Nat) (w cp cs : R) (r1 r2 : Nat → R) (vel pos bp gb : List R) : List R :=
  (List.range n).map fun d =>
    w * vel.getD d 0 + cp * r1 d * (bp.getD d 0 - pos.getD d 0)
      + cs * r2 d * (gb.getD d 0 - pos.getD d 0)

/-- The position update (`pso.py` line 140): `position = position + velocity`,
elementwise. -/
def updPosition (n : Nat) (pos vel : List R) : List R :=
  (List.range n).map fun d => pos.getD d 0 + vel.getD d 0

/-- The shared state the inner particle loop threads: the global best and the
cost-call log. -/
structure GState where
  gbc : WithTop R
  gbp : Option (List R)
  calls : List (List R)
deriving DecidableEq

/-- The body of the inner particle loop for one particle (`pso.py` lines
128-154): update velocity and position, evaluate the cost function, then the
conditional personal-best update and, nested inside it, the conditional
global-best update. -/
def processParticle (f : List R → R) (n : Nat) (w cp cs : R) (r1 r2 : Nat → R)
    (p : Particle) (g : GState) : Particle × GState :=
  let vel := updVelocity n w cp cs r1 r2 p.velocity p.position p.best_position (g.gbp.getD [])
  let pos := updPosition n p.position vel
  let c := f pos
  let g1 : GState := { g with calls := g.calls ++ [pos] }
  if c < p.best_cost then
    let p2 : Particle :=
      { position := pos, best_position := pos, velocity := vel, cost := c, best_cost := c }
    if (c : WithTop R) < g1.gbc then
      (p2, { g1 with gbc := (c : WithTop R), gbp := some pos })
    else (p2, g1)
  else ({ p with position := pos, velocity := vel, cost := c }, g1)

/-- The inner loop `for i in range(self.num_particles)` of one iteration
(`pso.py` lines 128-154): particles are processed in order and the global
best is threaded through, so a later particle sees every update an earlier
particle made in the same iteration. `i` is the index of the first particle
of the remaining list (it selects the random draws `r1 i`, `r2 i`). -/
def processList (f : List R → R) (n : Nat) (w cp cs : R) (r1 r2 : Nat → Nat → R) :
    Nat → List Particle → GState → List Particle × GState
  | _, [], g => ([], g)
  | i, p :: rest, g =>
    let pg := processParticle f n w cp cs (r1 i) (r2 i) p g
    let rg := processList f n w cp cs r1 r2 (i + 1) rest pg.2
    (pg.1 :: rg.1, rg.2)

/-- One iteration of the main loop, after the cancellation poll (`pso.py`
lines 120-154): compute the three coefficients via `linrate`, then run the
inner particle loop. -/
def iterStep (self : PSO) (f : List R → R) (r1 r2 : Nat → Nat → Nat → R)
    (t : Nat) (s : SwarmState) : SwarmState :=
  let w := wCoeff self t
  let cp := cpCoeff self t
  let cs := csCoeff self t
  let pr := processList f self.num_var.toNat w cp cs (r1 t) (r2 t) 0 s.particles
    { gbc := s.global_best_cost, gbp := s.global_best_position, calls := s.calls }
  { particles := pr.1, global_best_cost := pr.2.gbc,
    global_best_position := pr.2.gbp, calls := pr.2.calls }

/-- The main loop `for iteration in range(self.iter_max)` (`pso.py` lines
116-154) over the list of iteration indices: at the top of each iteration the
cancellation flag is polled and, if set, the loop returns immediately (the
source's bare `return`), leaving the state exactly as it was. -/
def mainLoop (self : PSO) (f : List R → R) (stopped : Nat → Bool)
    (r1 r2 : Nat → Nat → Nat → R) : List Nat → SwarmState → SwarmState
  | [], s => s
  | t :: rest, s =>
    if stopped t then s
    else mainLoop self f stopped r1 r2 rest (iterStep self f r1 r2 t s)

/-- The iteration indices the main loop visits: `range(self.iter_max)`,
which is empty when `iter_max <= 0`. -/
def loopIters (iter_max : Int) : List Nat := List.range iter_max.toNat

/-- `PSO.optimize` (`pso.py` lines 91-157): initialization, then the main
loop. The pair returned is (the Python return value, the final attribute
state): the source's `optimize` has no `return <expr>` statement — the bare
`return` on cancellation and falling off the end both produce `None` — so the
first component is `none` on every path. -/
def optimize (self : PSO) (f : List R → R) (stopped : Nat → Bool)
    (samp : Nat → Nat → R) (r1 r2 : Nat → Nat → Nat → R) :
    Option (List R) × SwarmState :=
  let s0 := initRun self f samp
  let s1 := mainLoop self f stopped r1 r2 (loopIters self.iter_max) s0
  (none, s1)

/-- The configuration `main_module.py` builds: `PSO(optimality_criterion, 60)`
with every default of `PSO.__init__` (`num_particles=30, iter_max=100,
var_min=-10, var_max=10, wi=0.9, wf=0.4, cpi=2.5, cpf=0.5, csi=0.5, csf=2.5`). -/
def defaultPSO : PSO := PSO.make 60 30 100 (-10) 10 (9/10) (2/5) (5/2) (1/2) (1/2) (5/2)


lemma processParticle_velocity (f : List R → R) (n : Nat) (w cp cs : R) (r1 r2 : Nat → R)
    (p : Particle) (g : GState) :
    (processParticle f n w cp cs r1 r2 p g).1.velocity
      = updVelocity n w cp cs r1 r2 p.velocity p.position p.best_position (g.gbp.getD []) := by
  unfold processParticle
  dsimp only
  split_ifs <;> rfl

lemma processParticle_position (f : List R → R) (n : Nat) (w cp cs : R) (r1 r2 : Nat → R)
    (p : Particle) (g : GState) :
    (processParticle f n w cp cs r1 r2 p g).1.position
      = updPosition n p.position
          (updVelocity n w cp cs r1 r2 p.velocity p.position p.best_position (g.gbp.getD [])) := by
  unfold processParticle
  dsimp only
  split_ifs <;> rfl

lemma processParticle_gbc_le (f : List R → R) (n : Nat) (w cp cs : R) (r1 r2 : Nat → R)
    (p : Particle) (g : GState) :
    (processParticle f n w cp cs r1 r2 p g).2.gbc ≤ g.gbc := by
  unfold processParticle
  dsimp only
  split_ifs with h1 h2
  · exact le_of_lt h2
  · exact le_refl _
  · exact le_refl _

lemma processParticle_best (f : List R → R) (n : Nat) (w cp cs : R) (r1 r2 : Nat → R)
    (p : Particle) (g : GState) (h : g.gbc ≤ (p.best_cost : WithTop R)) :
    (processParticle f n w cp cs r1 r2 p g).1.best_cost
        ≤ (processParticle f n w cp cs r1 r2 p g).1.cost
    ∧ (processParticle f n w cp cs r1 r2 p g).2.gbc
        ≤ ((processParticle f n w cp cs r1 r2 p g).1.best_cost : WithTop R) := by
  unfold processParticle
  dsimp only
  split_ifs with h1 h2
  · exact ⟨le_refl _, le_refl _⟩
  · exact ⟨le_refl _, not_lt.mp h2⟩
  · exact ⟨not_lt.mp h1, h⟩



lemma processList_gbc_le (f : List R → R) (n : Nat) (w cp cs : R) (r1 r2 : Nat → Nat → R) :
    ∀ (l : List Particle) (i : Nat) (g : GState),
      (processList f n w cp cs r1 r2 i l g).2.gbc ≤ g.gbc := by
  intro l
  induction l with
  | nil => intro i g; exact le_refl _
  | cons p rest ih =>
      intro i g
      exact le_trans (ih (i + 1) (processParticle f n w cp cs (r1 i) (r2 i) p g).2)
        (processParticle_gbc_le f n w cp cs (r1 i) (r2 i) p g)

lemma processList_inv (f : List R → R) (n : Nat) (w cp cs : R) (r1 r2 : Nat → Nat → R) :
    ∀ (l : List Particle) (i : Nat) (g : GState),
      (∀ p ∈ l, g.gbc ≤ (p.best_cost : WithTop R)) →
      ∀ q ∈ (processList f n w cp cs r1 r2 i l g).1,
        q.best_cost ≤ q.cost
        ∧ (processList f n w cp cs r1 r2 i l g).2.gbc ≤ (q.best_cost : WithTop R) := by
  intro l
  induction l with
  | nil => intro i g _ q hq; simp [processList] at hq
  | cons p rest ih =>
      intro i g h q hq
      have hhead := processParticle_best f n w cp cs (r1 i) (r2 i) p g (h p (by simp))
      have htail : ∀ p' ∈ rest,
          (processParticle f n w cp cs (r1 i) (r2 i) p g).2.gbc ≤ (p'.best_cost : WithTop R) :=
        fun p' hp' => le_trans (processParticle_gbc_le f n w cp cs (r1 i) (r2 i) p g)
          (h p' (by simp [hp']))
      simp only [processList] at hq ⊢
      rcases List.mem_cons.mp hq with hq | hq
      · subst hq
        refine ⟨hhead.1, le_trans ?_ hhead.2⟩
        exact processList_gbc_le f n w cp cs r1 r2 rest (i + 1) _
      · exact ih (i + 1) _ htail q hq

/-- The invariant of §8 of the spec on the optimizer's run state: every
particle's personal best is at most its current cost, and the global best
cost is at most every personal best. -/
def Inv (s : SwarmState) : Prop :=
  ∀ p ∈ s.particles, p.best_cost ≤ p.cost
    ∧ s.global_best_cost ≤ (p.best_cost : WithTop R)

lemma initStep_inv (f : List R → R) (nv : Int) (samp : Nat → R) (s : SwarmState)
    (h : Inv s) : Inv (initStep f nv samp s) := by
  unfold initStep Inv
  dsimp only
  split_ifs with h1
  · intro p hp
    simp only [List.mem_append, List.mem_singleton] at hp
    rcases hp with hp | hp
    · exact ⟨(h p hp).1, le_trans (le_of_lt h1) (h p hp).2⟩
    · subst hp; exact ⟨le_refl _, le_refl _⟩
  · intro p hp
    simp only [List.mem_append, List.mem_singleton] at hp
    rcases hp with hp | hp
    · exact h p hp
    · subst hp; exact ⟨le_refl _, not_lt.mp h1⟩

lemma initLoop_inv (f : List R → R) (nv : Int) (samp : Nat → Nat → R) :
    ∀ (l : List Nat) (s : SwarmState), Inv s → Inv (initLoop f nv samp l s) := by
  intro l
  induction l with
  | nil => intro s h; exact h
  | cons i rest ih =>
      intro s h
      exact ih _ (initStep_inv f nv (samp i) s h)

lemma initRun_inv (self : PSO) (f : List R → R) (samp : Nat → Nat → R) :
    Inv (initRun self f samp) := by
  refine initLoop_inv f self.num_var samp _ initState ?_
  intro p hp
  simp [initState] at hp

lemma iterStep_inv (self : PSO) (f : List R → R) (r1 r2 : Nat → Nat → Nat → R)
    (t : Nat) (s : SwarmState) (h : Inv s) : Inv (iterStep self f r1 r2 t s) := by
  unfold iterStep Inv
  dsimp only
  intro q hq
  exact processList_inv f self.num_var.toNat (wCoeff self t) (cpCoeff self t) (csCoeff self t)
    (r1 t) (r2 t) s.particles 0 ⟨s.global_best_cost, s.global_best_position, s.calls⟩
    (fun p hp => (h p hp).2) q hq

lemma iterStep_gbc_le (self : PSO) (f : List R → R) (r1 r2 : Nat → Nat → Nat → R)
    (t : Nat) (s : SwarmState) :
    (iterStep self f r1 r2 t s).global_best_cost ≤ s.global_best_cost := by
  unfold iterStep
  dsimp only
  exact processList_gbc_le f self.num_var.toNat (wCoeff self t) (cpCoeff self t) (csCoeff self t)
    (r1 t) (r2 t) s.particles 0 _

lemma mainLoop_inv (self : PSO) (f : List R → R) (stopped : Nat → Bool)
    (r1 r2 : Nat → Nat → Nat → R) :
    ∀ (l : List Nat) (s : SwarmState), Inv s → Inv (mainLoop self f stopped r1 r2 l s) := by
  intro l
  induction l with
  | nil => intro s h; exact h
  | cons t rest ih =>
      intro s h
      unfold mainLoop
      split_ifs with hs
      · exact h
      · exact ih _ (iterStep_inv self f r1 r2 t s h)

lemma mainLoop_gbc_le (self : PSO) (f : List R → R) (stopped : Nat → Bool)
    (r1 r2 : Nat → Nat → Nat → R) :
    ∀ (l : List Nat) (s : SwarmState),
      (mainLoop self f stopped r1 r2 l s).global_best_cost ≤ s.global_best_cost := by
  intro l
  induction l with
  | nil => intro s; exact le_refl _
  | cons t rest ih =>
      intro s
      unfold mainLoop
      split_ifs with hs
      · exact le_refl _
      · exact le_trans (ih _) (iterStep_gbc_le self f r1 r2 t s)

lemma mainLoop_append_gbc_le (self : PSO) (f : List R → R) (stopped : Nat → Bool)
    (r1 r2 : Nat → Nat → Nat → R) :
    ∀ (l1 l2 : List Nat) (s : SwarmState),
      (mainLoop self f stopped r1 r2 (l1 ++ l2) s).global_best_cost
        ≤ (mainLoop self f stopped r1 r2 l1 s).global_best_cost := by
  intro l1
  induction l1 with
  | nil => intro l2 s; exact mainLoop_gbc_le self f stopped r1 r2 l2 s
  | cons t rest ih =>
      intro l2 s
      simp only [List.cons_append]
      unfold mainLoop
      split_ifs with hs
      · exact le_refl _
      · exact ih l2 _



lemma initStep_particles (f : List R → R) (nv : Int) (samp : Nat → R) (s : SwarmState) :
    (initStep f nv samp s).particles = s.particles ++ [initParticle f nv samp] := by
  unfold initStep
  dsimp only
  split_ifs <;> rfl

lemma initStep_calls (f : List R → R) (nv : Int) (samp : Nat → R) (s : SwarmState) :
    (initStep f nv samp s).calls = s.calls ++ [(initParticle f nv samp).position] := by
  unfold initStep
  dsimp only
  split_ifs <;> rfl

lemma initLoop_particles (f : List R → R) (nv : Int) (samp : Nat → Nat → R) :
    ∀ (l : List Nat) (s : SwarmState),
      (initLoop f nv samp l s).particles
        = s.particles ++ l.map (fun i => initParticle f nv (samp i)) := by
  intro l
  induction l with
  | nil => intro s; simp [initLoop]
  | cons i rest ih =>
      intro s
      simp only [initLoop, List.map_cons]
      rw [ih, initStep_particles]
      simp

lemma initLoop_calls (f : List R → R) (nv : Int) (samp : Nat → Nat → R) :
    ∀ (l : List Nat) (s : SwarmState),
      (initLoop f nv samp l s).calls
        = s.calls ++ l.map (fun i => (initParticle f nv (samp i)).position) := by
  intro l
  induction l with
  | nil => intro s; simp [initLoop]
  | cons i rest ih =>
      intro s
      simp only [initLoop, List.map_cons]
      rw [ih, initStep_calls]
      simp

lemma initRun_particles (self : PSO) (f : List R → R) (samp : Nat → Nat → R) :
    (initRun self f samp).particles
      = (List.range self.num_particles.toNat).map
          (fun i => initParticle f self.num_var (samp i)) := by
  unfold initRun
  rw [initLoop_particles]
  rfl

lemma initRun_calls (self : PSO) (f : List R → R) (samp : Nat → Nat → R) :
    (initRun self f samp).calls
      = (List.range self.num_particles.toNat).map
          (fun i => (initParticle f self.num_var (samp i)).position) := by
  unfold initRun
  rw [initLoop_calls]
  rfl

lemma getD_map_range (fn : Nat → R) {n d : Nat} (h : d < n) :
    ((List.range n).map fn).getD d 0 = fn d := by
  rw [List.getD_eq_getElem?_getD, List.getElem?_map, List.getElem?_range h]
  rfl



lemma processList_get_split (f : List R → R) (n : Nat) (w cp cs : R) (r1 r2 : Nat → Nat → R) :
    ∀ (l1 : List Particle) (i0 : Nat) (p : Particle) (l2 : List Particle) (g : GState),
      (processList f n w cp cs r1 r2 i0 (l1 ++ p :: l2) g).1.get? l1.length
        = some (processParticle f n w cp cs (r1 (i0 + l1.length)) (r2 (i0 + l1.length)) p
            (processList f n w cp cs r1 r2 i0 l1 g).2).1 := by
  intro l1
  induction l1 with
  | nil =>
      intro i0 p l2 g
      simp [processList]
  | cons x l1' ih =>
      intro i0 p l2 g
      have harith : i0 + (x :: l1').length = (i0 + 1) + l1'.length := by
        simp [List.length_cons]
        omega
      rw [harith]
      simp only [List.cons_append, processList, List.length_cons, List.get?]
      exact ih (i0 + 1) p l2 _

/-- The run state after the first `k` iterations of the main loop (counting a
cancelled iteration as leaving the state unchanged), starting from the
initialized swarm. `optimize` itself performs `afterIter` with
`k = iter_max.toNat`. -/
def afterIter (self : PSO) (f : List R → R) (stopped : Nat → Bool)
    (samp : Nat → Nat → R) (r1 r2 : Nat → Nat → Nat → R) (k : Nat) : SwarmState :=
  mainLoop self f stopped r1 r2 (List.range k) (initRun self f samp)



/-- A small concrete configuration: 1 variable, 1 particle, 1 iteration,
default bounds and coefficients. -/
def cfg1 : PSO := PSO.make 1 1 1 (-10) 10 (9/10) (2/5) (5/2) (1/2) (1/2) (5/2)

/-- A concrete cost oracle: the first coordinate of the position. -/
def f1 : List R → R := fun pos => pos.getD 0 0

/-- A concrete configuration with 2 particles (1 variable, 1 iteration). -/
def cfg2 : PSO := PSO.make 1 2 1 (-10) 10 (9/10) (2/5) (5/2) (1/2) (1/2) (5/2)

/-- A configuration every conjunct of the spec's construction-time validation
rejects: `num_var = 0`, `num_particles = -5`, `iter_max = 0`,
`var_min = 10 >= var_max = -10`. -/
def invalidPSO : PSO := PSO.make 0 (-5) 0 10 (-10) (9/10) (2/5) (5/2) (1/2) (1/2) (5/2)

/-- A Python float as the cost comparisons see it: either NaN or a real
number. `cost_function` may return NaN (the spec's "oracle failure"). -/
inductive FVal where
  | nan : FVal
  | val : R → FVal
deriving Repr, DecidableEq

/-- IEEE-754 `<` on such values, as Python's `<` behaves on floats: any
comparison against NaN is False. -/
def FVal.lt : FVal → FVal → Bool
  | FVal.val a, FVal.val b => decide (a < b)
  | _, _ => false

/-- The personal/global best update step of the main loop (`pso.py` lines
145-154) over possibly-NaN costs: `if cost < best_cost:` update the personal
best, and inside it `if best_cost < global_best_cost:` update the global
best; no other branch, no error path. Returns
(best_position, best_cost, global_best_cost, global_best_position). -/
def bestUpdate (c : FVal) (pos bp : List R) (bc gbc : FVal) (gbp : Option (List R)) :
    List R × FVal × FVal × Option (List R) :=
  if FVal.lt c bc then
    if FVal.lt c gbc then (pos, c, c, some pos) else (pos, c, gbc, gbp)
  else (bp, bc, gbc, gbp)



/-- C1: the claim says `optimize()` returns the final `global_best_position`
on completion and the current partial best on cancellation. The source's
`optimize` has no `return <expr>`: on a concrete run to completion and on a
run cancelled before iteration 0, the Python return value is `None`, while
the best position found sits only in the `global_best_position` attribute
(the repository's own caller `main_module.py` does
`w = p.optimize()` and then evaluates `optimality_criterion(w)` on the
returned `None`). -/
theorem C1_optimize_returns_none :
    (optimize cfg1 f1 (fun _ => false) (fun _ _ => 3) (fun _ _ _ => 0) (fun _ _ _ => 0)).1 = none
    ∧ (optimize cfg1 f1 (fun _ => false) (fun _ _ => 3) (fun _ _ _ => 0)
        (fun _ _ _ => 0)).2.global_best_position = some [3]
    ∧ (optimize cfg1 f1 (fun _ => true) (fun _ _ => 3) (fun _ _ _ => 0) (fun _ _ _ => 0)).1 = none
    ∧ (optimize cfg1 f1 (fun _ => true) (fun _ _ => 3) (fun _ _ _ => 0)
        (fun _ _ _ => 0)).2.global_best_position = some [3] := by
  refine ⟨rfl, ?_, rfl, ?_⟩ <;>
    norm_num [optimize, initRun, initLoop, initStep, initParticle, initState, cfg1, PSO.make, f1,
      loopIters, mainLoop, iterStep, processList, processParticle, updVelocity, updPosition,
      wCoeff, cpCoeff, csCoeff, PSO.linrate, PSO.linrateDenom, List.range_succ,
      WithTop.coe_lt_coe, WithTop.coe_lt_top,
      -WithTop.coe_one, -WithTop.coe_zero, -WithTop.coe_ofNat]

/-- C2: the claim says all three coefficients follow
`coefficient(t) = final + (initial - final) * (iter_max - t) / iter_max`,
so `coefficient(0) = initial`. Under the defaults, the cognitive and social
coefficients do start at their initial values, but the inertia factor starts
at its FINAL value `wf = 0.4`, not the initial `wi = 0.9`: `optimize` calls
`linrate(self.wf, self.wi, ...)` with the endpoints in the opposite order to
the `cp`/`cs` calls. -/
theorem C2_inertia_starts_at_final_value :
    wCoeff defaultPSO 0 = defaultPSO.wf
    ∧ cpCoeff defaultPSO 0 = defaultPSO.cpi
    ∧ csCoeff defaultPSO 0 = defaultPSO.csi
    ∧ defaultPSO.wi = 9/10 ∧ defaultPSO.wf = 2/5
    ∧ wCoeff defaultPSO 0 ≠ defaultPSO.wi := by
  norm_num [wCoeff, cpCoeff, csCoeff, PSO.linrate, PSO.linrateDenom, defaultPSO, PSO.make]

/-- C3: the claim says that after initialization `global_best_position` is
the position of a particle whose cost equals `global_best_cost`. Concretely,
with two particles of costs 0 and 1 processed in that order, initialization
ends with `global_best_cost = 0` but `global_best_position = [1]`, the
position of the last-processed particle, whose cost is 1, not 0: the source
assigns `self.global_best_position = particle_array[i].best_position`
unconditionally before the comparison. -/
theorem C3_init_global_best_position_mismatch :
    (initRun cfg2 f1 (fun i _ => (i : R))).global_best_cost = ((0 : R) : WithTop R)
    ∧ (initRun cfg2 f1 (fun i _ => (i : R))).global_best_position = some [1]
    ∧ f1 [1] = 1 ∧ (1 : R) ≠ 0 := by
  norm_num [initRun, initLoop, initStep, initParticle, initState, cfg2, PSO.make, f1,
    List.range_succ, WithTop.coe_lt_coe, WithTop.coe_lt_top,
    -WithTop.coe_one, -WithTop.coe_zero, -WithTop.coe_ofNat]

/-- C4: the claim says non-positive `num_particles`/`iter_max`/`num_var` or
`var_min >= var_max` is rejected at construction time. The constructor has no
validation: it accepts `num_var = 0`, `num_particles = -5`, `iter_max = 0`,
`var_min = 10 >= var_max = -10`, stores them, and a subsequent `optimize`
silently runs to completion on an empty swarm instead of any construction
failure. -/
theorem C4_constructor_accepts_invalid_config :
    invalidPSO.num_var = 0 ∧ invalidPSO.num_particles = -5 ∧ invalidPSO.iter_max = 0
    ∧ invalidPSO.var_min = 10 ∧ invalidPSO.var_max = -10
    ∧ invalidPSO.var_max ≤ invalidPSO.var_min
    ∧ (optimize invalidPSO f1 (fun _ => false) (fun _ _ => 0) (fun _ _ _ => 0)
        (fun _ _ _ => 0)).2 = initState := by
  refine ⟨rfl, rfl, rfl, rfl, rfl, by norm_num [invalidPSO, PSO.make], rfl⟩

/-- C5: the claim says a NaN cost is never silently absorbed by the
`cost < best_cost` comparison leaving stale bests in place. With
`cost_function` returning NaN while `best_cost = 5` and
`global_best_cost = 3`, the update step of the main loop leaves every best
unchanged and signals nothing: both IEEE comparisons against NaN are False,
so the stale personal and global bests survive silently. -/
theorem C5_nan_cost_silently_absorbed (pos bp : List R) (gbp : Option (List R)) :
    bestUpdate FVal.nan pos bp (FVal.val 5) (FVal.val 3) gbp
      = (bp, FVal.val 5, FVal.val 3, gbp) := by
  simp [bestUpdate, FVal.lt]



/-- C6: with the cost function returning real (rational) values, after any
number of main-loop iterations every particle satisfies
`best_cost <= cost` and `global_best_cost <= best_cost`, and
`global_best_cost` never increases from one iteration to the next;
`optimize`'s final state is exactly the state after `iter_max` iterations. -/
theorem C6_best_invariants_and_monotone (self : PSO) (f : List R → R) (stopped : Nat → Bool)
    (samp : Nat → Nat → R) (r1 r2 : Nat → Nat → Nat → R) (k : Nat) :
    Inv (afterIter self f stopped samp r1 r2 k)
    ∧ (afterIter self f stopped samp r1 r2 (k + 1)).global_best_cost
        ≤ (afterIter self f stopped samp r1 r2 k).global_best_cost
    ∧ (optimize self f stopped samp r1 r2).2
        = afterIter self f stopped samp r1 r2 self.iter_max.toNat := by
  refine ⟨?_, ?_, rfl⟩
  · exact mainLoop_inv self f stopped r1 r2 _ _ (initRun_inv self f samp)
  · unfold afterIter
    rw [List.range_succ]
    exact mainLoop_append_gbc_le self f stopped r1 r2 _ _ _

/-- C7: initialization calls the cost function exactly `num_particles` times,
once per particle with that particle's position, and every particle starts
with a position sampled inside `[var_min, var_max]` per dimension, zero
velocity of length `num_var`, `cost = best_cost = cost_function(position)`
and `best_position = position`; `samp` stands for `np.random.uniform`, whose
draws lie in the configured interval. -/
theorem C7_initialization_contract (self : PSO) (f : List R → R) (samp : Nat → Nat → R)
    (hs : ∀ i d, self.var_min ≤ samp i d ∧ samp i d ≤ self.var_max) :
    (initRun self f samp).calls.length = self.num_particles.toNat
    ∧ (initRun self f samp).particles.length = self.num_particles.toNat
    ∧ (initRun self f samp).calls = (initRun self f samp).particles.map Particle.position
    ∧ ∀ p ∈ (initRun self f samp).particles,
        p.velocity = List.replicate self.num_var.toNat 0
        ∧ p.cost = f p.position ∧ p.best_cost = p.cost ∧ p.best_position = p.position
        ∧ p.position.length = self.num_var.toNat
        ∧ ∀ x ∈ p.position, self.var_min ≤ x ∧ x ≤ self.var_max := by
  refine ⟨?_, ?_, ?_, ?_⟩
  · rw [initRun_calls]; simp
  · rw [initRun_particles]; simp
  · rw [initRun_calls, initRun_particles, List.map_map]; rfl
  · rw [initRun_particles]
    intro p hp
    rcases List.mem_map.mp hp with ⟨i, hi, rfl⟩
    refine ⟨rfl, rfl, rfl, rfl, by simp [initParticle], ?_⟩
    intro x hx
    dsimp only [initParticle] at hx
    rcases List.mem_map.mp hx with ⟨d, hd, rfl⟩
    exact hs i d

/-- Witness for C7 at a concrete configuration and sampler. -/
theorem C7_initialization_contract_witness :
    (initRun cfg1 f1 (fun _ _ => 3)).calls.length = cfg1.num_particles.toNat :=
  (C7_initialization_contract cfg1 f1 (fun _ _ => 3)
    (fun _ _ => ⟨by norm_num [cfg1, PSO.make], by norm_num [cfg1, PSO.make]⟩)).1



/-- A particle at the upper bound of the default domain with a large
velocity, to exercise the absence of clamping. -/
def escParticle : Particle :=
  { position := [10], best_position := [10], velocity := [8], cost := 10, best_cost := 10 }

/-- A shared state whose global best sits at the domain's upper bound. -/
def escState : GState := { gbc := ((10 : R) : WithTop R), gbp := some [10], calls := [] }

/-- C8: per dimension `d < num_var`, one particle update computes
`velocity[d] = w*velocity[d] + cp*r1[d]*(best_position[d] - position[d])
+ cs*r2[d]*(global_best_position[d] - position[d])` and then
`position[d] = position[d] + velocity[d]`, with the fresh per-dimension draws
`r1`, `r2`; and no clamping follows: a particle at the default domain's upper
bound `var_max = 10` with velocity 8 and in-range random draws moves to
position 18, outside the configured domain. -/
theorem C8_update_formula_no_clamping (f : List R → R) (n : Nat) (w cp cs : R)
    (r1 r2 : Nat → R) (p : Particle) (g : GState) :
    ((∀ d, d < n →
        (processParticle f n w cp cs r1 r2 p g).1.velocity.getD d 0
          = w * p.velocity.getD d 0
            + cp * r1 d * (p.best_position.getD d 0 - p.position.getD d 0)
            + cs * r2 d * ((g.gbp.getD []).getD d 0 - p.position.getD d 0)
        ∧ (processParticle f n w cp cs r1 r2 p g).1.position.getD d 0
            = p.position.getD d 0 + (processParticle f n w cp cs r1 r2 p g).1.velocity.getD d 0)
      ∧ (processParticle f n w cp cs r1 r2 p g).1.velocity.length = n
      ∧ (processParticle f n w cp cs r1 r2 p g).1.position.length = n)
    ∧ defaultPSO.var_max
        < (processParticle f1 1 1 (1/2) (1/2) (fun _ => 1/2) (fun _ => 1/2)
            escParticle escState).1.position.getD 0 0 := by
  constructor
  · refine ⟨?_, ?_, ?_⟩
    · intro d hd
      rw [processParticle_velocity, processParticle_position]
      constructor
      · exact getD_map_range _ hd
      · unfold updPosition
        rw [getD_map_range _ hd]
    · rw [processParticle_velocity]; simp [updVelocity]
    · rw [processParticle_position]; simp [updPosition]
  · norm_num [processParticle, updVelocity, updPosition, escParticle, escState, f1,
      defaultPSO, PSO.make, List.range_succ,
      WithTop.coe_lt_coe, WithTop.coe_lt_top,
      -WithTop.coe_one, -WithTop.coe_zero, -WithTop.coe_ofNat]



/-- First particle of the C9 scenario: its update strictly improves the
global best (cost drops to 5/2, below the shared best 5). -/
def p0C9 : Particle :=
  { position := [0], best_position := [0], velocity := [0], cost := 0, best_cost := 10 }

/-- Second particle of the C9 scenario, processed after `p0C9` in the same
iteration. -/
def p1C9 : Particle :=
  { position := [9], best_position := [9], velocity := [0], cost := 0, best_cost := 9 }

/-- The shared state at the start of the C9 iteration: global best cost 5 at
position `[5]`. -/
def g0C9 : GState := { gbc := ((5 : R) : WithTop R), gbp := some [5], calls := [] }

/-- C9: in one iteration the inner loop threads the global best through the
particles in processing order, so the particle after any prefix is updated
from the state that prefix produced (first conjunct, for every split of the
particle list). Concretely, with `w = cp = 0`, `cs = 1`, draws `1/2`:
particle 0 improves the global best from `[5]` to `[5/2]`, and particle 1's
velocity comes out `-13/4 = (1/2)*(5/2 - 9)`, built from the improved value,
whereas a snapshot frozen at iteration start would give `-2 = (1/2)*(5 - 9)`. -/
theorem C9_inner_loop_reads_latest_global_best (f : List R → R) (n : Nat) (w cp cs : R)
    (r1 r2 : Nat → Nat → R) (i0 : Nat) (l1 : List Particle) (p : Particle)
    (l2 : List Particle) (g : GState) :
    ((processList f n w cp cs r1 r2 i0 (l1 ++ p :: l2) g).1.get? l1.length
        = some (processParticle f n w cp cs (r1 (i0 + l1.length)) (r2 (i0 + l1.length)) p
            (processList f n w cp cs r1 r2 i0 l1 g).2).1)
    ∧ ((processList f1 1 0 0 1 (fun _ _ => 1/2) (fun _ _ => 1/2) 0 [p0C9, p1C9] g0C9).1.getD 1
          Particle.new).velocity = [-13/4]
    ∧ updVelocity 1 0 0 1 (fun _ => 1/2) (fun _ => 1/2) p1C9.velocity p1C9.position
        p1C9.best_position (g0C9.gbp.getD []) = [-2]
    ∧ (-13/4 : R) ≠ -2 := by
  refine ⟨processList_get_split f n w cp cs r1 r2 l1 i0 p l2 g, ?_, ?_, by norm_num⟩
  · norm_num [processList, processParticle, updVelocity, updPosition, p0C9, p1C9, g0C9, f1,
      List.range_succ, WithTop.coe_lt_coe, WithTop.coe_lt_top,
      -WithTop.coe_one, -WithTop.coe_zero, -WithTop.coe_ofNat]
  · norm_num [updVelocity, p1C9, g0C9, List.range_succ]

/-- C10: every call `optimize` makes to `linrate` happens at an iteration
index drawn from `range(iter_max)`, which forces `iter_max >= 1` and hence a
nonzero divisor `iter_max - 0`; for `iter_max <= 0` (which the unvalidated
constructor accepts) the loop body never runs, so `optimize` performs no
division by zero for any integer `iter_max`. -/
theorem C10_linrate_never_divides_by_zero (self : PSO) :
    (∀ t ∈ loopIters self.iter_max, 1 ≤ self.iter_max ∧ self.linrateDenom ≠ 0)
    ∧ (self.iter_max ≤ 0 → loopIters self.iter_max = []) := by
  constructor
  · intro t ht
    have h1 : t < self.iter_max.toNat := List.mem_range.mp ht
    have h2 : 1 ≤ self.iter_max := by omega
    refine ⟨h2, ?_⟩
    unfold PSO.linrateDenom
    have hz : (self.iter_max : R) ≠ 0 := by
      exact_mod_cast (by omega : self.iter_max ≠ 0)
    simpa using hz
  · intro h
    unfold loopIters
    have hz : self.iter_max.toNat = 0 := by omega
    rw [hz]
    rfl


end PSOSpec
